import Mathlib

/-!
Verification of `Assignment 7/dl_assignment_7_common.py`.

The Python module is embedded shallowly: floating-point values are modelled
as exact rationals (`ℚ`), Python exceptions as `Except`/`Option`, and the
external tensor/teaching libraries (`torch`, `d2l`) as abstract parameters
of the definitions.  All control flow (the branch chains of `get_dataset`
and `create_network`, the epoch/phase/batch loops of `train`) is translated
from the source.
-/

namespace DL7

/-- The Python exceptions raised by this module: `ValueError(msg)` and
`NotImplementedError`. -/
inductive PyError where
  | valueError (msg : String)
  | notImplementedError
deriving DecidableEq

/-! ## Dataset provider (`get_dataset`, source lines 16-55) -/

/-- `math.floor(0.9 * len(train_and_val_data) * used_data)` (line 37). -/
def train_data_count (N : ℕ) (used_data : ℚ) : ℤ :=
  ⌊(9 / 10 : ℚ) * N * used_data⌋

/-- `math.ceil(0.1 * len(train_and_val_data) * used_data)` (line 38). -/
def validation_data_count (N : ℕ) (used_data : ℚ) : ℤ :=
  ⌈(1 / 10 : ℚ) * N * used_data⌉

/-- `len(train_and_val_data) - train_data_count - validation_data_count` (line 39). -/
def unused_data_count (N : ℕ) (used_data : ℚ) : ℤ :=
  N - train_data_count N used_data - validation_data_count N used_data

/-- `math.ceil(len(test_data) * used_data)` (line 45). -/
def test_count (Nt : ℕ) (used_data : ℚ) : ℤ :=
  ⌈(Nt : ℚ) * used_data⌉

/-- `len(test_data) - test_count` (line 46). -/
def test_unused_count (Nt : ℕ) (used_data : ℚ) : ℤ :=
  Nt - test_count Nt used_data

/-- The partition sizes produced by `get_dataset` (lines 37-49) for a
train/val source of size `N` and a test source of size `Nt`. -/
structure SplitCounts where
  train : ℤ
  val : ℤ
  unused : ℤ
  test : ℤ
  test_unused : ℤ
deriving DecidableEq

/-- Split arithmetic of lines 37-49, applied after a dataset is recognized. -/
def split_counts (N Nt : ℕ) (used_data : ℚ) : SplitCounts where
  train := train_data_count N used_data
  val := validation_data_count N used_data
  unused := unused_data_count N used_data
  test := test_count Nt used_data
  test_unused := test_unused_count Nt used_data

/-- `get_dataset(name, batch_size, used_data)` (lines 16-55).  The dataset
store (torchvision download and caching) is abstracted to two length
functions giving the sizes of the train/val and test sources for each
dataset name; the branch chain and the split arithmetic follow the source.
The returned `SplitCounts` stand for the three `DataLoader`s, whose
underlying partitions have exactly these sizes. -/
def get_dataset (trainval_len test_len : String → ℕ) (name : String)
    (used_data : ℚ) : Except PyError SplitCounts :=
  if name = "mnist" then
    .ok (split_counts (trainval_len "mnist") (test_len "mnist") used_data)
  else if name = "fashionmnist" then
    .ok (split_counts (trainval_len "fashionmnist") (test_len "fashionmnist") used_data)
  else
    .error (.valueError ("Dataset name " ++ name ++ " was not recognized"))

/-! ## Network factory (`create_network`, source lines 63-85) -/

/-- A layer of an `nn.Sequential` model, as used by `create_lenet`. -/
inductive Layer where
  | lazyLinear (out : ℕ)
  | linear (inp out : ℕ)
  | sigmoid
deriving DecidableEq

/-- `create_lenet(num_classes=10)` (lines 63-70): the `nn.Sequential`
layer list. -/
def create_lenet (num_classes : ℕ) : List Layer :=
  [.lazyLinear 300, .sigmoid, .linear 300 100, .sigmoid, .linear 100 num_classes]

/-- `create_arch2()` (lines 73-74): unconditionally raises
`NotImplementedError`. -/
def create_arch2 : Except PyError (List Layer) :=
  .error .notImplementedError

/-- `create_network(arch, **kwargs)` (lines 77-85). -/
def create_network (arch : String) (num_classes : ℕ) : Except PyError (List Layer) :=
  if arch = "lenet" then .ok (create_lenet num_classes)
  else if arch = "arch2" then create_arch2
  else .error (.valueError ("Architecture name " ++ arch ++ " was not recognized"))

/-! ## Metric Accumulator (`d2l.Accumulator`) -/

/-- Modelled from the spec: `d2l.Accumulator(n)` (the d2l teaching library is
an external dependency, not in this repository) — a running total over `n`
numeric channels, initialized to zero, with pointwise addition and indexed
reads. -/
abbrev Accumulator (n : ℕ) := Fin n → ℚ

/-- A fresh accumulator: every channel is zero. -/
def accInit (n : ℕ) : Accumulator n := fun _ => 0

/-- `Accumulator.add`: add one contribution to every channel. -/
def accAdd {n : ℕ} (m : Accumulator n) (v : Fin n → ℚ) : Accumulator n :=
  fun i => m i + v i

/-- The per-epoch, per-phase metric accumulation of `train` (line 170):
fold batches of `(loss·size, accuracy·size, size)` triples into a fresh
3-channel accumulator. -/
def accumulate3 (ts : List (ℚ × ℚ × ℕ)) : Accumulator 3 :=
  ts.foldl (fun m t => accAdd m ![t.1, t.2.1, (t.2.2 : ℚ)]) (accInit 3)

/-! ## Training and testing loops (`evaluate_loss`, `evaluate`, `train`,
source lines 101-201)

The tensor/autodiff machinery is abstracted into an environment `Env`:
`P` is the type of the network's learnable parameter state, `B` the type of
one batch. -/

/-- The external collaborators used by the loops:
* `sz b` — `x.shape[0]`, the number of samples in batch `b`;
* `step p b` — the parameter state after `optimizer.zero_grad()`,
  `loss.backward()`, `optimizer.step()` on batch `b` (the one operation
  that mutates the parameters);
* `lossSum p b` — `d2l.reduce_sum(loss_fn(net(x), y))` for batch `b`;
* `lossSize p b` — `d2l.size(loss_fn(net(x), y))` for batch `b`;
* `accEval p l` — `d2l.evaluate_accuracy_gpu(net, l)` over loader `l`. -/
structure Env (P B : Type) where
  sz : B → ℕ
  step : P → B → P
  lossSum : P → B → ℚ
  lossSize : P → B → ℚ
  accEval : P → List B → ℚ

/-- `evaluate_loss(net, data_iter, loss_fn, device)` (lines 101-117): fold
`(reduce_sum(loss), size(loss))` into a 2-channel accumulator, then return
`metric[0] / metric[1]`.  Rational division by zero is total in Lean; the
Python behaviour on a zero divisor is captured by `evaluate_loss?`. -/
def evaluate_loss {P B : Type} (E : Env P B) (net : P) (data_iter : List B) : ℚ :=
  let metric := data_iter.foldl
    (fun m b => accAdd m ![E.lossSum net b, E.lossSize net b]) (accInit 2)
  metric 0 / metric 1

/-- `evaluate_loss` with Python's division semantics made explicit: the
final `metric[0] / metric[1]` raises `ZeroDivisionError` (returns `none`)
when the accumulated divisor `metric[1]` is zero. -/
def evaluate_loss? {P B : Type} (E : Env P B) (net : P) (data_iter : List B) :
    Option ℚ :=
  let metric := data_iter.foldl
    (fun m b => accAdd m ![E.lossSum net b, E.lossSize net b]) (accInit 2)
  if metric 1 = 0 then none else some (metric 0 / metric 1)

/-- `evaluate(net, evaluation_set, loss_fn, device)` (lines 120-124):
the pair (loss over the set, accuracy over the set). -/
def evaluate {P B : Type} (E : Env P B) (net : P) (evaluation_set : List B) :
    ℚ × ℚ :=
  (evaluate_loss E net evaluation_set, E.accEval net evaluation_set)

/-- The observable actions of `train`: a checkpoint write (`torch.save`),
an animator point (`training_progression_animator.add`), one processed
batch of a phase's inner loop, and a console line (`print`). -/
inductive Event where
  | save (path : String)
  | animAdd (x : ℕ) (ys : List ℚ)
  | procBatch (phase : String) (size : ℕ)
  | printLine (s : String)
deriving DecidableEq

/-- Is this event a checkpoint write? -/
def Event.isSave : Event → Bool
  | .save _ => true
  | _ => false

/-- Is this event a processed batch of the given phase? -/
def Event.isProc (phase : String) : Event → Bool
  | .procBatch p _ => p = phase
  | _ => false

/-- Is this event a console line? -/
def Event.isPrint : Event → Bool
  | .printLine _ => true
  | _ => false

/-- `f"checkpoints/model-{model_file_name}-{epoch}.pth"` (line 175). -/
def checkpointPath (model_file_name : String) (epoch : ℕ) : String :=
  "checkpoints/model-" ++ model_file_name ++ "-" ++ toString epoch ++ ".pth"

/-- `f"checkpoints/model-{model_file_name}-final.pth"` (line 196). -/
def finalCheckpointPath (model_file_name : String) : String :=
  "checkpoints/model-" ++ model_file_name ++ "-final.pth"

/-- The three `DataLoader`s handed to `train` (`data_loaders` dict). -/
structure DataLoaders (B : Type) where
  train : List B
  val : List B
  test : List B

/-- One iteration of the inner batch loop (lines 154-172): update the
parameters iff the phase is `"train"` (lines 164-167), re-evaluate the
whole phase loader with the updated parameters
(`evaluate(net, data_loaders[phase], ...)`, line 169), and add the result,
weighted by the batch's size `x.shape[0]`, to the phase's 3-channel
accumulator (line 170). -/
def phaseStep {P B : Type} (E : Env P B) (loader : List B) (phase : String)
    (st : P × Accumulator 3 × List Event) (b : B) :
    P × Accumulator 3 × List Event :=
  let net1 := if phase = "train" then E.step st.1 b else st.1
  let la := evaluate E net1 loader
  (net1,
   accAdd st.2.1 ![la.1 * E.sz b, la.2 * E.sz b, (E.sz b : ℚ)],
   st.2.2 ++ [Event.procBatch phase (E.sz b)])

/-- The inner batch loop of one phase (lines 154-172), starting from a
fresh accumulator (line 146). -/
def runPhase {P B : Type} (E : Env P B) (loader : List B) (phase : String)
    (net : P) : P × Accumulator 3 × List Event :=
  loader.foldl (phaseStep E loader phase) (net, accInit 3, [])

/-- Specification-side description of one phase's accumulator contents
(spec §4.4 step 4): walking the batches in order, each batch contributes
the triple (full-loader loss × batch size, full-loader accuracy × batch
size, batch size), where the full-loader evaluation uses the parameters as
they stand after that batch's optional update.  Compared against
`runPhase` in the C2 theorem. -/
def phaseContribs {P B : Type} (E : Env P B) (loader : List B) (phase : String) :
    P → List B → List (ℚ × ℚ × ℕ)
  | _, [] => []
  | p, b :: rest =>
    let p1 := if phase = "train" then E.step p b else p
    let la := evaluate E p1 loader
    (la.1 * E.sz b, la.2 * E.sz b, E.sz b) :: phaseContribs E loader phase p1 rest

/-- One iteration of the epoch loop (lines 144-188): fresh accumulators,
the `train` phase, the `val` phase only when
`epoch % eval_every_n_epochs == 0` (lines 148-150), then either a periodic
checkpoint plus a four-curve animator point (lines 174-183) or a two-curve
animator point (lines 184-188).  Returns the parameter state, the two
accumulators `(metrics["train"], metrics["val"])`, and the epoch's events. -/
def runEpoch {P B : Type} (E : Env P B) (dl : DataLoaders B)
    (eval_every_n_epochs : ℕ) (model_file_name : String) (epoch : ℕ) (net : P) :
    P × (Accumulator 3 × Accumulator 3) × List Event :=
  let tr := runPhase E dl.train "train" net
  if epoch % eval_every_n_epochs = 0 then
    let va := runPhase E dl.val "val" tr.1
    (va.1, (tr.2.1, va.2.1),
      tr.2.2 ++ va.2.2 ++
      [Event.save (checkpointPath model_file_name epoch),
       Event.animAdd (epoch + 1)
         [tr.2.1 0 / tr.2.1 2, tr.2.1 1 / tr.2.1 2,
          va.2.1 0 / va.2.1 2, va.2.1 1 / va.2.1 2]])
  else
    (tr.1, (tr.2.1, accInit 3),
      tr.2.2 ++
      [Event.animAdd (epoch + 1) [tr.2.1 0 / tr.2.1 2, tr.2.1 1 / tr.2.1 2]])

/-- The fold step of the epoch loop: thread the parameters, keep the most
recent epoch's accumulators (the Python `metrics` variable), and append the
epoch's events. -/
def epochFold {P B : Type} (E : Env P B) (dl : DataLoaders B)
    (eval_every_n_epochs : ℕ) (model_file_name : String)
    (st : P × (Accumulator 3 × Accumulator 3) × List Event) (epoch : ℕ) :
    P × (Accumulator 3 × Accumulator 3) × List Event :=
  let r := runEpoch E dl eval_every_n_epochs model_file_name epoch st.1
  (r.1, r.2.1, st.2.2 ++ r.2.2)

/-- Zero-pad a fraction below 1000 to three digits. -/
def pad3 (n : ℕ) : String :=
  if n < 10 then "00" ++ toString n
  else if n < 100 then "0" ++ toString n
  else toString n

/-- Modelled from the spec: Python's fixed-point formatting `:.3f` — render
to exactly three decimal places.  Rounding of the binary double is
abstracted to rounding the exact rational to the nearest thousandth. -/
def format3 (q : ℚ) : String :=
  let n : ℤ := round (q * 1000)
  (if n < 0 then "-" else "") ++
    toString (n.natAbs / 1000) ++ "." ++ pad3 (n.natAbs % 1000)

/-- The summary line printed at lines 199-201. -/
def summaryLine (train_loss train_acc val_loss val_acc test_loss test_acc : ℚ) :
    String :=
  "train loss " ++ format3 train_loss ++ ", train accuracy " ++ format3 train_acc ++
  ", val loss " ++ format3 val_loss ++ ", val accuracy " ++ format3 val_acc ++
  ", test loss " ++ format3 test_loss ++ ", test accuracy " ++ format3 test_acc

/-- `train(net, data_loaders, ...)` (lines 127-201): run the epoch loop,
then evaluate the test and validation partitions with the final parameters,
read the last epoch's train metrics, write the final checkpoint, and print
the summary line.  Returns the final parameter state, the last epoch's
accumulators, and the ordered event trace. -/
def train {P B : Type} (E : Env P B) (dl : DataLoaders B)
    (model_file_name : String) (epochs eval_every_n_epochs : ℕ) (net0 : P) :
    P × (Accumulator 3 × Accumulator 3) × List Event :=
  let loop := (List.range epochs).foldl
    (epochFold E dl eval_every_n_epochs model_file_name)
    (net0, (accInit 3, accInit 3), [])
  let net := loop.1
  let metrics := loop.2.1
  let te := evaluate E net dl.test
  let va := evaluate E net dl.val
  let train_loss := metrics.1 0 / metrics.1 2
  let train_acc := metrics.1 1 / metrics.1 2
  (net, metrics,
    loop.2.2 ++
    [Event.save (finalCheckpointPath model_file_name),
     Event.printLine (summaryLine train_loss train_acc va.1 va.2 te.1 te.2)])

/-! ## Concrete instances used by the witness theorems -/

/-- A small concrete environment over `P = ℚ`, `B = ℕ` (a batch is its own
sample count). -/
def envW : Env ℚ ℕ where
  sz := fun b => b
  step := fun p b => p + b
  lossSum := fun p b => p * b
  lossSize := fun _ b => (b : ℚ)
  accEval := fun p l => p + l.length

/-- Concrete loaders: two train batches, one val batch, one test batch. -/
def dlW : DataLoaders ℕ where
  train := [2, 3]
  val := [1]
  test := [4]

/-! ## Helper lemmas -/

/-- Channel `i` of a fold of `accAdd` is the initial channel plus the sum of
the per-element contributions to that channel. -/
theorem accAdd_foldl_channel {α : Type} {n : ℕ} (g : α → Fin n → ℚ) :
    ∀ (l : List α) (a : Accumulator n) (i : Fin n),
      (l.foldl (fun m b => accAdd m (g b)) a) i = a i + (l.map (fun b => g b i)).sum := by
  intro l
  induction l with
  | nil => intro a i; simp
  | cons b t ih =>
      intro a i
      simp only [List.foldl_cons, List.map_cons, List.sum_cons]
      rw [ih]
      simp [accAdd]
      ring

/-- Channel values of `accumulate3` are the plain sums. -/
theorem accumulate3_channels (ts : List (ℚ × ℚ × ℕ)) :
    accumulate3 ts 0 = (ts.map (fun t => t.1)).sum ∧
    accumulate3 ts 1 = (ts.map (fun t => t.2.1)).sum ∧
    accumulate3 ts 2 = (ts.map (fun t => (t.2.2 : ℚ))).sum := by
  refine ⟨?_, ?_, ?_⟩ <;>
    · rw [accumulate3, accAdd_foldl_channel]
      simp [accInit]

/-- Folding a state-preserving function changes nothing. -/
theorem foldl_const_state {α β : Type} :
    ∀ (l : List β) (x : α), l.foldl (fun q _ => q) x = x := by
  intro l
  induction l with
  | nil => intro x; rfl
  | cons b t ih =>
      intro x
      simp only [List.foldl_cons]
      exact ih x

/-- Parameters after the inner batch fold: `step` is applied exactly when
the phase is `"train"`. -/
theorem phaseStep_foldl_params {P B : Type} (E : Env P B) (loader : List B)
    (phase : String) :
    ∀ (bs : List B) (p : P) (a : Accumulator 3) (ev : List Event),
      (bs.foldl (phaseStep E loader phase) (p, a, ev)).1 =
        bs.foldl (fun q b => if phase = "train" then E.step q b else q) p := by
  intro bs
  induction bs with
  | nil => intro p a ev; rfl
  | cons b t ih =>
      intro p a ev
      simp only [List.foldl_cons, phaseStep]
      exact ih _ _ _

/-- Events of the inner batch fold: one `procBatch` per batch, in order. -/
theorem phaseStep_foldl_events {P B : Type} (E : Env P B) (loader : List B)
    (phase : String) :
    ∀ (bs : List B) (p : P) (a : Accumulator 3) (ev : List Event),
      (bs.foldl (phaseStep E loader phase) (p, a, ev)).2.2 =
        ev ++ bs.map (fun b => Event.procBatch phase (E.sz b)) := by
  intro bs
  induction bs with
  | nil => intro p a ev; simp [runPhase]
  | cons b t ih =>
      intro p a ev
      simp only [List.foldl_cons, phaseStep, List.map_cons]
      rw [ih]
      simp

/-- The accumulator of the inner batch fold equals folding the spec-side
per-batch contributions. -/
theorem phaseStep_foldl_acc {P B : Type} (E : Env P B) (loader : List B)
    (phase : String) :
    ∀ (bs : List B) (p : P) (a : Accumulator 3) (ev : List Event),
      (bs.foldl (phaseStep E loader phase) (p, a, ev)).2.1 =
        (phaseContribs E loader phase p bs).foldl
          (fun m t => accAdd m ![t.1, t.2.1, (t.2.2 : ℚ)]) a := by
  intro bs
  induction bs with
  | nil => intro p a ev; rfl
  | cons b t ih =>
      intro p a ev
      simp only [List.foldl_cons, phaseStep, phaseContribs]
      exact ih _ _ _

/-- `runPhase` in the train phase folds `step` over the loader. -/
theorem runPhase_params_train {P B : Type} (E : Env P B) (loader : List B) (net : P) :
    (runPhase E loader "train" net).1 = loader.foldl E.step net := by
  rw [runPhase, phaseStep_foldl_params]
  simp

/-- `runPhase` in the val phase leaves the parameters unchanged. -/
theorem runPhase_params_val {P B : Type} (E : Env P B) (loader : List B) (net : P) :
    (runPhase E loader "val" net).1 = net := by
  rw [runPhase, phaseStep_foldl_params]
  have h : ("val" : String) ≠ "train" := by decide
  simp only [h, if_false]
  exact foldl_const_state loader net

/-- The events of one phase are exactly its processed batches. -/
theorem runPhase_events {P B : Type} (E : Env P B) (loader : List B)
    (phase : String) (net : P) :
    (runPhase E loader phase net).2.2 =
      loader.map (fun b => Event.procBatch phase (E.sz b)) := by
  rw [runPhase, phaseStep_foldl_events]
  simp

/-- A list of `procBatch` events contains no checkpoint writes. -/
theorem filter_isSave_procs {B : Type} (phase : String) (f : B → ℕ) (l : List B) :
    (l.map (fun b => Event.procBatch phase (f b))).filter Event.isSave = [] := by
  induction l with
  | nil => rfl
  | cons b t ih => simp [Event.isSave, ih]

/-- A list of `procBatch` events contains no console lines. -/
theorem countP_isPrint_procs {B : Type} (phase : String) (f : B → ℕ) (l : List B) :
    (l.map (fun b => Event.procBatch phase (f b))).countP Event.isPrint = 0 := by
  induction l with
  | nil => rfl
  | cons b t ih => simp [Event.isPrint, List.countP_cons, ih]

/-- Counting one phase's batch events against a phase name. -/
theorem countP_isProc_procs {B : Type} (phase ph : String) (f : B → ℕ) (l : List B) :
    (l.map (fun b => Event.procBatch phase (f b))).countP (Event.isProc ph) =
      if phase = ph then l.length else 0 := by
  induction l with
  | nil => simp
  | cons b t ih =>
      by_cases h : phase = ph <;> simp [Event.isProc, List.countP_cons, ih, h]

/-- The parameters after one epoch: one `step` per train batch, with the
val phase contributing nothing. -/
theorem runEpoch_params {P B : Type} (E : Env P B) (dl : DataLoaders B)
    (k : ℕ) (name : String) (e : ℕ) (net : P) :
    (runEpoch E dl k name e net).1 = dl.train.foldl E.step net := by
  rw [runEpoch]
  by_cases h : e % k = 0
  · simp [h, runPhase_params_val, runPhase_params_train]
  · simp [h, runPhase_params_train]

/-- The checkpoint writes of one epoch: exactly one, iff the epoch is
aligned with the evaluation cadence. -/
theorem runEpoch_saves {P B : Type} (E : Env P B) (dl : DataLoaders B)
    (k : ℕ) (name : String) (e : ℕ) (net : P) :
    (runEpoch E dl k name e net).2.2.filter Event.isSave =
      if e % k = 0 then [Event.save (checkpointPath name e)] else [] := by
  rw [runEpoch]
  by_cases h : e % k = 0 <;>
    simp [h, runPhase_events, List.filter_append, filter_isSave_procs, Event.isSave]

/-- No epoch prints a console line. -/
theorem runEpoch_no_print {P B : Type} (E : Env P B) (dl : DataLoaders B)
    (k : ℕ) (name : String) (e : ℕ) (net : P) :
    (runEpoch E dl k name e net).2.2.countP Event.isPrint = 0 := by
  rw [runEpoch]
  by_cases h : e % k = 0 <;>
    simp [h, runPhase_events, List.countP_append, countP_isPrint_procs,
      Event.isPrint, List.countP_cons]

/-- Parameters through the epoch loop: one train-phase fold per epoch. -/
theorem epochFold_foldl_params {P B : Type} (E : Env P B) (dl : DataLoaders B)
    (k : ℕ) (name : String) :
    ∀ (l : List ℕ) (s : P × (Accumulator 3 × Accumulator 3) × List Event),
      (l.foldl (epochFold E dl k name) s).1 =
        l.foldl (fun p _ => dl.train.foldl E.step p) s.1 := by
  intro l
  induction l with
  | nil => intro s; rfl
  | cons e t ih =>
      intro s
      simp only [List.foldl_cons, epochFold]
      rw [ih]
      simp [runEpoch_params]

/-- Checkpoint writes through the epoch loop. -/
theorem epochFold_foldl_saves {P B : Type} (E : Env P B) (dl : DataLoaders B)
    (k : ℕ) (name : String) :
    ∀ (l : List ℕ) (s : P × (Accumulator 3 × Accumulator 3) × List Event),
      (l.foldl (epochFold E dl k name) s).2.2.filter Event.isSave =
        s.2.2.filter Event.isSave ++
          (l.filter (fun e => e % k = 0)).map
            (fun e => Event.save (checkpointPath name e)) := by
  intro l
  induction l with
  | nil => intro s; simp
  | cons e t ih =>
      intro s
      simp only [List.foldl_cons, epochFold, List.filter_cons]
      rw [ih]
      by_cases h : e % k = 0 <;>
        simp [h, List.filter_append, runEpoch_saves]

/-- No console line is printed inside the epoch loop. -/
theorem epochFold_foldl_print {P B : Type} (E : Env P B) (dl : DataLoaders B)
    (k : ℕ) (name : String) :
    ∀ (l : List ℕ) (s : P × (Accumulator 3 × Accumulator 3) × List Event),
      (l.foldl (epochFold E dl k name) s).2.2.countP Event.isPrint =
        s.2.2.countP Event.isPrint := by
  intro l
  induction l with
  | nil => intro s; rfl
  | cons e t ih =>
      intro s
      simp only [List.foldl_cons, epochFold]
      rw [ih]
      simp [List.countP_append, runEpoch_no_print]

/-- The last element of a list extended by two elements. -/
theorem getLast_append_pair {α : Type} (l : List α) (a b : α) :
    (l ++ [a, b]).getLast? = some b := by
  rw [show l ++ [a, b] = (l ++ [a]) ++ [b] by simp]
  exact List.getLast?_concat _

/-! ## Claim theorems -/

/-- C1: for every `used_data ∈ (0,1]` and source sizes `N`, `Nt`, the split
computes `train = ⌊0.9·N·u⌋`, `val = ⌈0.1·N·u⌉`, the discarded remainder
closes the partition (`train + val + unused = N`), the test partition is
reduced to `⌈Nt·u⌉ ≤ Nt`, and all counts are non-negative. -/
theorem split_counts_spec (N Nt : ℕ) (u : ℚ) (h0 : 0 < u) (h1 : u ≤ 1) :
    (split_counts N Nt u).train = ⌊(9 / 10 : ℚ) * N * u⌋ ∧
    (split_counts N Nt u).val = ⌈(1 / 10 : ℚ) * N * u⌉ ∧
    (split_counts N Nt u).train + (split_counts N Nt u).val +
      (split_counts N Nt u).unused = N ∧
    (split_counts N Nt u).test = ⌈(Nt : ℚ) * u⌉ ∧
    (split_counts N Nt u).test ≤ Nt ∧
    0 ≤ (split_counts N Nt u).train ∧ 0 ≤ (split_counts N Nt u).val ∧
    0 ≤ (split_counts N Nt u).unused ∧ 0 ≤ (split_counts N Nt u).test := by
  have hN : (0 : ℚ) ≤ (N : ℚ) := Nat.cast_nonneg N
  have hNt : (0 : ℚ) ≤ (Nt : ℚ) := Nat.cast_nonneg Nt
  have ha : (0 : ℚ) ≤ (9 / 10 : ℚ) * N * u := by positivity
  have hb : (0 : ℚ) ≤ (1 / 10 : ℚ) * N * u := by positivity
  have hNtu : (Nt : ℚ) * u ≤ Nt := by
    calc (Nt : ℚ) * u ≤ Nt * 1 := by
          exact mul_le_mul_of_nonneg_left h1 hNt
      _ = Nt := by ring
  have hNu : (N : ℚ) * u ≤ N := by
    calc (N : ℚ) * u ≤ N * 1 := by
          exact mul_le_mul_of_nonneg_left h1 hN
      _ = N := by ring
  have hfloor : ((train_data_count N u : ℤ) : ℚ) ≤ (9 / 10 : ℚ) * N * u :=
    Int.floor_le _
  have hceil : ((validation_data_count N u : ℤ) : ℚ) < (1 / 10 : ℚ) * N * u + 1 :=
    Int.ceil_lt_add_one _
  have hlt : ((train_data_count N u + validation_data_count N u : ℤ) : ℚ) < (N : ℚ) + 1 := by
    push_cast
    nlinarith
  have hle : train_data_count N u + validation_data_count N u ≤ (N : ℤ) := by
    have h : train_data_count N u + validation_data_count N u < (N : ℤ) + 1 := by
      exact_mod_cast hlt
    omega
  refine ⟨rfl, rfl, ?_, rfl, ?_, ?_, ?_, ?_, ?_⟩
  · simp [split_counts, unused_data_count]
  · exact Int.ceil_le.mpr (by exact_mod_cast hNtu)
  · exact Int.le_floor.mpr (by simpa using ha)
  · exact Int.ceil_nonneg hb
  · simp only [split_counts, unused_data_count]
    omega
  · exact Int.ceil_nonneg (by positivity)

/-- Witness for C1 at `N = 10`, `Nt = 10`, `u = 1` (the spec's end-to-end
scenario: train 9, validation 1). -/
theorem split_counts_spec_witness :
    (0 : ℚ) < 1 ∧ (split_counts 10 10 (1 : ℚ)).train = ⌊(9 / 10 : ℚ) * (10 : ℕ) * 1⌋ ∧
      (split_counts 10 10 (1 : ℚ)).train + (split_counts 10 10 (1 : ℚ)).val +
        (split_counts 10 10 (1 : ℚ)).unused = (10 : ℕ) := by
  have h := split_counts_spec 10 10 1 (by norm_num) (by norm_num)
  exact ⟨by norm_num, h.1, h.2.2.1⟩

/-- C6: any dataset name outside `{mnist, fashionmnist}` makes
`get_dataset` raise `ValueError` (line 35) before any split is computed:
the result is an error, never `SplitCounts`/iterators. -/
theorem get_dataset_unrecognized (trainval_len test_len : String → ℕ)
    (name : String) (u : ℚ) (h1 : name ≠ "mnist") (h2 : name ≠ "fashionmnist") :
    get_dataset trainval_len test_len name u =
      .error (.valueError ("Dataset name " ++ name ++ " was not recognized")) := by
  simp [get_dataset, h1, h2]

/-- Witness for C6 at `name = "not_a_dataset"`. -/
theorem get_dataset_unrecognized_witness :
    get_dataset (fun _ => 60000) (fun _ => 10000) "not_a_dataset" 1 =
      .error (.valueError "Dataset name not_a_dataset was not recognized") :=
  get_dataset_unrecognized (fun _ => 60000) (fun _ => 10000) "not_a_dataset" 1
    (by decide) (by decide)

/-- C7: `create_network` raises `ValueError` for every architecture name
other than `lenet` and `arch2`, and `NotImplementedError` for `arch2`; in
both cases no network is returned. -/
theorem create_network_errors (arch : String) (n : ℕ)
    (hl : arch ≠ "lenet") (ha : arch ≠ "arch2") :
    create_network arch n =
      .error (.valueError ("Architecture name " ++ arch ++ " was not recognized")) ∧
    create_network "arch2" n = .error .notImplementedError := by
  constructor
  · simp [create_network, hl, ha]
  · simp [create_network, create_arch2]

/-- Witness for C7 at `arch = "resnet"`. -/
theorem create_network_errors_witness :
    create_network "resnet" 10 =
      .error (.valueError "Architecture name resnet was not recognized") ∧
    create_network "arch2" 10 = .error .notImplementedError :=
  create_network_errors "resnet" 10 (by decide) (by decide)

/-- C5: starting from zero, after folding batches `(lᵢ, aᵢ, sᵢ)` in, the
weighted-mean read `channel 0 / channel 2` equals `(Σ lᵢ) / (Σ sᵢ)` exactly,
and any permutation of the batch order yields the same reads. -/
theorem accumulator_weighted_mean (ts tsP : List (ℚ × ℚ × ℕ)) (hp : ts.Perm tsP) :
    accumulate3 ts 0 / accumulate3 ts 2 =
      (ts.map (fun t => t.1)).sum / (ts.map (fun t => (t.2.2 : ℚ))).sum ∧
    accumulate3 ts 1 / accumulate3 ts 2 =
      (ts.map (fun t => t.2.1)).sum / (ts.map (fun t => (t.2.2 : ℚ))).sum ∧
    accumulate3 tsP 0 / accumulate3 tsP 2 = accumulate3 ts 0 / accumulate3 ts 2 ∧
    accumulate3 tsP 1 / accumulate3 tsP 2 = accumulate3 ts 1 / accumulate3 ts 2 := by
  obtain ⟨h0, h1, h2⟩ := accumulate3_channels ts
  obtain ⟨g0, g1, g2⟩ := accumulate3_channels tsP
  have e0 : (tsP.map (fun t => t.1)).sum = (ts.map (fun t => t.1)).sum :=
    (hp.map _).symm.sum_eq
  have e1 : (tsP.map (fun t => t.2.1)).sum = (ts.map (fun t => t.2.1)).sum :=
    (hp.map _).symm.sum_eq
  have e2 : (tsP.map (fun t => (t.2.2 : ℚ))).sum = (ts.map (fun t => (t.2.2 : ℚ))).sum :=
    (hp.map _).symm.sum_eq
  refine ⟨by rw [h0, h2], by rw [h1, h2], ?_, ?_⟩
  · rw [h0, h2, g0, g2, e0, e2]
  · rw [h1, h2, g1, g2, e1, e2]

/-- Witness for C5 on two concrete batch lists that are permutations of one
another. -/
theorem accumulator_weighted_mean_witness :
    accumulate3 [(1, 2, 3), (4, 5, 6)] 0 / accumulate3 [(1, 2, 3), (4, 5, 6)] 2 =
      ([(1, 2, 3), (4, 5, 6)].map (fun t : ℚ × ℚ × ℕ => t.1)).sum /
        ([(1, 2, 3), (4, 5, 6)].map (fun t : ℚ × ℚ × ℕ => (t.2.2 : ℚ))).sum ∧
    accumulate3 [(4, 5, 6), (1, 2, 3)] 0 / accumulate3 [(4, 5, 6), (1, 2, 3)] 2 =
      accumulate3 [(1, 2, 3), (4, 5, 6)] 0 / accumulate3 [(1, 2, 3), (4, 5, 6)] 2 := by
  have h := accumulator_weighted_mean [(1, 2, 3), (4, 5, 6)] [(4, 5, 6), (1, 2, 3)]
    (by decide)
  exact ⟨h.1, h.2.2.1⟩

/-- C2: for every batch of a phase (not only the last of an epoch), after
the optional parameter update the loop evaluates loss and accuracy over the
entire phase loader and folds that full-phase result, weighted by the
batch's size, into the phase accumulator: the accumulator produced by
`runPhase` is exactly the fold of the spec-side per-batch contributions
`phaseContribs`. -/
theorem runPhase_full_reeval {P B : Type} (E : Env P B) (loader : List B)
    (phase : String) (net : P) :
    (runPhase E loader phase net).2.1 =
      accumulate3 (phaseContribs E loader phase net loader) := by
  rw [runPhase, phaseStep_foldl_acc, accumulate3]

/-- C4: the train phase processes all its batches in every epoch; the val
phase processes all its batches exactly in epochs aligned with the cadence,
and in every other epoch no val batch is processed and the val accumulator
stays at its fresh zero value. -/
theorem val_phase_cadence {P B : Type} (E : Env P B) (dl : DataLoaders B)
    (k : ℕ) (name : String) (e : ℕ) (net : P) :
    (runEpoch E dl k name e net).2.2.countP (Event.isProc "train") = dl.train.length ∧
    (e % k = 0 →
      (runEpoch E dl k name e net).2.2.countP (Event.isProc "val") = dl.val.length ∧
      (runEpoch E dl k name e net).2.1.2 =
        (runPhase E dl.val "val" (runPhase E dl.train "train" net).1).2.1) ∧
    (e % k ≠ 0 →
      (runEpoch E dl k name e net).2.2.countP (Event.isProc "val") = 0 ∧
      (runEpoch E dl k name e net).2.1.2 = accInit 3) := by
  refine ⟨?_, ?_, ?_⟩
  · rw [runEpoch]
    by_cases h : e % k = 0 <;>
      simp [h, runPhase_events, List.countP_append, List.countP_map,
        Function.comp_def, Event.isProc, List.countP_cons, List.countP_true,
        List.countP_false]
  · intro h
    rw [runEpoch]
    simp [h, runPhase_events, List.countP_append, List.countP_map,
      Function.comp_def, Event.isProc, List.countP_cons, List.countP_true,
      List.countP_false]
  · intro h
    rw [runEpoch]
    simp [h, runPhase_events, List.countP_append, List.countP_map,
      Function.comp_def, Event.isProc, List.countP_cons, List.countP_true,
      List.countP_false]

/-- Witness for C4 with the concrete environment: in epoch 1 with cadence 2
the val phase is skipped (no val batch, zero accumulator); in epoch 0 it
runs all val batches. -/
theorem val_phase_cadence_witness :
    (runEpoch envW dlW 2 "lenet" 1 0).2.2.countP (Event.isProc "val") = 0 ∧
    (runEpoch envW dlW 2 "lenet" 1 0).2.1.2 = accInit 3 ∧
    (runEpoch envW dlW 2 "lenet" 0 0).2.2.countP (Event.isProc "val") = dlW.val.length := by
  have h1 := (val_phase_cadence envW dlW 2 "lenet" 1 0).2.2 (by decide)
  have h0 := (val_phase_cadence envW dlW 2 "lenet" 0 0).2.1 (by decide)
  exact ⟨h1.1, h1.2, h0.1⟩

/-- C3: the checkpoint writes of a run are exactly one periodic write
`checkpoints/model-<name>-<e>.pth` for each epoch `e` with
`e % eval_every_n_epochs == 0` (in particular epoch 0), followed by the
unconditional final write `checkpoints/model-<name>-final.pth` after the
epoch loop, whatever the cadence alignment of the last epoch. -/
theorem checkpoint_schedule {P B : Type} (E : Env P B) (dl : DataLoaders B)
    (name : String) (epochs k : ℕ) (net0 : P) (_hk : 0 < k) (_he : 0 < epochs) :
    (train E dl name epochs k net0).2.2.filter Event.isSave =
      ((List.range epochs).filter (fun e => e % k = 0)).map
        (fun e => Event.save (checkpointPath name e)) ++
      [Event.save (finalCheckpointPath name)] ∧
    Event.save (checkpointPath name 0) ∈ (train E dl name epochs k net0).2.2 ∧
    Event.save (finalCheckpointPath name) ∈ (train E dl name epochs k net0).2.2 ∧
    checkpointPath "lenet" 0 = "checkpoints/model-lenet-0.pth" ∧
    finalCheckpointPath "lenet" = "checkpoints/model-lenet-final.pth" := by
  have hfilter : (train E dl name epochs k net0).2.2.filter Event.isSave =
      ((List.range epochs).filter (fun e => e % k = 0)).map
        (fun e => Event.save (checkpointPath name e)) ++
      [Event.save (finalCheckpointPath name)] := by
    show ((List.range epochs).foldl (epochFold E dl k name)
        (net0, (accInit 3, accInit 3), []) |>.2.2 ++ _).filter Event.isSave = _
    rw [List.filter_append, epochFold_foldl_saves]
    simp [Event.isSave]
  refine ⟨hfilter, ?_, ?_, by rfl, by rfl⟩
  · have hmem : Event.save (checkpointPath name 0) ∈
        (train E dl name epochs k net0).2.2.filter Event.isSave := by
      rw [hfilter]
      refine List.mem_append_left _ ?_
      exact List.mem_map_of_mem _
        (List.mem_filter.mpr ⟨List.mem_range.mpr _he, by simp⟩)
    exact List.mem_of_mem_filter hmem
  · have hmem : Event.save (finalCheckpointPath name) ∈
        (train E dl name epochs k net0).2.2.filter Event.isSave := by
      rw [hfilter]
      exact List.mem_append_right _ (by simp)
    exact List.mem_of_mem_filter hmem

/-- Witness for C3 with the concrete environment, `epochs = 3`, cadence 2:
periodic checkpoints at epochs 0 and 2, plus the final checkpoint. -/
theorem checkpoint_schedule_witness :
    (train envW dlW "lenet" 3 2 0).2.2.filter Event.isSave =
      ((List.range 3).filter (fun e => e % 2 = 0)).map
        (fun e => Event.save (checkpointPath "lenet" e)) ++
      [Event.save (finalCheckpointPath "lenet")] ∧
    Event.save (checkpointPath "lenet" 0) ∈ (train envW dlW "lenet" 3 2 0).2.2 ∧
    checkpointPath "lenet" 0 = "checkpoints/model-lenet-0.pth" := by
  have h := checkpoint_schedule envW dlW "lenet" 3 2 0 (by decide) (by decide)
  exact ⟨h.1, h.2.1, h.2.2.2.1⟩

/-- C8: after the epoch loop, `train` prints exactly one console line, and
that line is the last event of the run: the summary of the last epoch's
train metrics together with loss/accuracy freshly evaluated on the val and
test partitions with the final parameters, each rendered to three decimal
places by the `:.3f` format. -/
theorem final_summary {P B : Type} (E : Env P B) (dl : DataLoaders B)
    (name : String) (epochs k : ℕ) (net0 : P) (_he : 0 < epochs) :
    (train E dl name epochs k net0).2.2.countP Event.isPrint = 1 ∧
    (train E dl name epochs k net0).2.2.getLast? =
      some (Event.printLine (summaryLine
        ((train E dl name epochs k net0).2.1.1 0 /
          (train E dl name epochs k net0).2.1.1 2)
        ((train E dl name epochs k net0).2.1.1 1 /
          (train E dl name epochs k net0).2.1.1 2)
        (evaluate E (train E dl name epochs k net0).1 dl.val).1
        (evaluate E (train E dl name epochs k net0).1 dl.val).2
        (evaluate E (train E dl name epochs k net0).1 dl.test).1
        (evaluate E (train E dl name epochs k net0).1 dl.test).2)) := by
  constructor
  · show ((List.range epochs).foldl (epochFold E dl k name)
        (net0, (accInit 3, accInit 3), []) |>.2.2 ++ _).countP Event.isPrint = 1
    rw [List.countP_append, epochFold_foldl_print]
    simp [Event.isPrint, List.countP_cons]
  · exact getLast_append_pair _ _ _

/-- Witness for C8 with the concrete environment and one epoch. -/
theorem final_summary_witness :
    (train envW dlW "lenet" 1 1 0).2.2.countP Event.isPrint = 1 ∧
    (train envW dlW "lenet" 1 1 0).2.2.getLast? =
      some (Event.printLine (summaryLine
        ((train envW dlW "lenet" 1 1 0).2.1.1 0 / (train envW dlW "lenet" 1 1 0).2.1.1 2)
        ((train envW dlW "lenet" 1 1 0).2.1.1 1 / (train envW dlW "lenet" 1 1 0).2.1.1 2)
        (evaluate envW (train envW dlW "lenet" 1 1 0).1 dlW.val).1
        (evaluate envW (train envW dlW "lenet" 1 1 0).1 dlW.val).2
        (evaluate envW (train envW dlW "lenet" 1 1 0).1 dlW.test).1
        (evaluate envW (train envW dlW "lenet" 1 1 0).1 dlW.test).2)) :=
  final_summary envW dlW "lenet" 1 1 0 (by decide)

/-- C9: the learnable parameters change only through the optimizer step of
the train phase: a val phase returns its input parameters unchanged, and
the final parameters of a whole run are exactly the repeated fold of `step`
over the train loader, one pass per epoch — val phases and the terminal
test/val evaluations contribute nothing. -/
theorem params_only_train_steps {P B : Type} (E : Env P B) (dl : DataLoaders B)
    (name : String) (epochs k : ℕ) (net0 : P) :
    (∀ (loader : List B) (p : P), (runPhase E loader "val" p).1 = p) ∧
    (train E dl name epochs k net0).1 =
      (List.range epochs).foldl (fun p _ => dl.train.foldl E.step p) net0 := by
  refine ⟨fun loader p => runPhase_params_val E loader p, ?_⟩
  show ((List.range epochs).foldl (epochFold E dl k name)
      (net0, (accInit 3, accInit 3), [])).1 = _
  rw [epochFold_foldl_params]

/-- C10: the weighted-mean reads divide with no guard.  `evaluate_loss`
ends in `metric[0] / metric[1]`: with an empty loader the divisor is zero
and the Python division fails (`evaluate_loss?` is `none`), while any
non-empty loader with positive per-batch loss sizes gives a well-defined
result equal to the total version; and in an epoch whose val phase was
skipped, the val accumulator's count channel — the divisor of the
`metrics["val"]` reads — is zero. -/
theorem unguarded_mean_reads {P B : Type} (E : Env P B) (net : P) (l : List B)
    (dl : DataLoaders B) (k : ℕ) (name : String) (e : ℕ) (net2 : P) :
    (l = [] → evaluate_loss? E net l = none) ∧
    ((∀ b ∈ l, 0 < E.lossSize net b) → l ≠ [] →
      evaluate_loss? E net l = some (evaluate_loss E net l)) ∧
    (e % k ≠ 0 → (runEpoch E dl k name e net2).2.1.2 2 = 0) := by
  refine ⟨?_, ?_, ?_⟩
  · intro h
    subst h
    rfl
  · intro hpos hne
    have hch : (l.foldl (fun m b => accAdd m ![E.lossSum net b, E.lossSize net b])
        (accInit 2)) 1 = (l.map (fun b => E.lossSize net b)).sum := by
      rw [accAdd_foldl_channel (fun b => ![E.lossSum net b, E.lossSize net b])]
      simp [accInit]
    have hsum : 0 < (l.map (fun b => E.lossSize net b)).sum := by
      apply List.sum_pos
      · intro x hx
        obtain ⟨b, hb, rfl⟩ := List.mem_map.mp hx
        exact hpos b hb
      · simpa using hne
    rw [evaluate_loss?, evaluate_loss]
    simp only [hch]
    rw [if_neg (ne_of_gt hsum)]
  · intro h
    rw [runEpoch]
    simp [h, accInit]

/-- Witness for C10 with the concrete environment: empty loader fails,
the loader `[2, 3]` succeeds, and epoch 1 under cadence 2 leaves the val
count channel at zero. -/
theorem unguarded_mean_reads_witness :
    evaluate_loss? envW 1 ([] : List ℕ) = none ∧
    evaluate_loss? envW 1 [2, 3] = some (evaluate_loss envW 1 [2, 3]) ∧
    (runEpoch envW dlW 2 "lenet" 1 0).2.1.2 2 = 0 := by
  have h := unguarded_mean_reads envW 1 [2, 3] dlW 2 "lenet" 1 0
  have h0 := unguarded_mean_reads envW 1 ([] : List ℕ) dlW 2 "lenet" 1 0
  exact ⟨h0.1 rfl, h.2.1 (by decide) (by decide), h.2.2 (by decide)⟩

end DL7
